import Mathlib

/-!
Shallow embedding of the biotools diversity-estimation engine
(src/helpers/analysis_methods.py, calculate_completeness.py, grid_utils.py,
data_loader.py, color_utils.py).  Python floats are modelled as exact
rationals; Python dicts that map grid cells to data are modelled as
association lists preserving insertion order.
-/

/-- Number of singleton species: counts equal to 1
(analysis_methods.py line 106). -/
def F1count (counts : List ℕ) : ℕ :=
  (counts.filter (fun c => c = 1)).length

/-- Number of doubleton species: counts equal to 2
(analysis_methods.py line 107). -/
def F2count (counts : List ℕ) : ℕ :=
  (counts.filter (fun c => c = 2)).length

/-- Chao1 estimator, `calculate_chao1_estimator` of analysis_methods.py
(identical copy in calculate_completeness.py).  The argument is the multiset
of per-species occurrence counts (the values of the Python Counter). -/
def calculate_chao1_estimator (counts : List ℕ) : ℚ :=
  if counts = [] then 0
  else if F2count counts = 0 then
    if 0 < F1count counts then
      (counts.length : ℚ) +
        ((F1count counts : ℚ) * ((F1count counts : ℚ) - 1)) / 2
    else (counts.length : ℚ)
  else
    (counts.length : ℚ) +
      ((F1count counts : ℚ) * (F1count counts : ℚ)) / (2 * (F2count counts : ℚ))

/-- Modelled from the spec: the bias-corrected Chao1 form
`S_est = S_obs + F1*(F1-1) / (2*(F2+1))` that the spec mandates uniformly.
Used only to compare against the estimator implemented in the code. -/
def chao1BiasCorrectedSpec (counts : List ℕ) : ℚ :=
  if counts = [] then 0
  else
    (counts.length : ℚ) +
      ((F1count counts : ℚ) * ((F1count counts : ℚ) - 1)) /
        (2 * ((F2count counts : ℚ) + 1))

/-- The multiset of per-species occurrence counts of a species list:
the values of `Counter(area_species_list)`. -/
def speciesCounts (l : List String) : List ℕ :=
  l.dedup.map (fun s => l.count s)

/-- `calculate_incompleteness` of analysis_methods.py (lines 125-155). -/
def calculate_incompleteness (l : List String) : ℚ :=
  if l = [] then 1
  else if calculate_chao1_estimator (speciesCounts l) = 0 then 1
  else
    max 0 (1 - ((speciesCounts l).length : ℚ) /
      calculate_chao1_estimator (speciesCounts l))

/-- `calculate_completeness` of calculate_completeness.py (lines 171-201):
observed/estimated richness, capped at 1.5. -/
def calculate_completeness (l : List String) : ℚ :=
  if l = [] then 0
  else if calculate_chao1_estimator (speciesCounts l) = 0 then 0
  else
    min (((speciesCounts l).length : ℚ) /
      calculate_chao1_estimator (speciesCounts l)) (3 / 2)

/-- Python-style list indexing over rationals: a negative index counts from
the end of the list (as in `curve[-1]`). -/
def pyIdx (l : List ℚ) (i : ℤ) : ℚ :=
  if 0 ≤ i then l.getD i.toNat 0 else l.getD (l.length - (-i).toNat) 0

/-- `calculate_accumulation_slope` of analysis_methods.py (lines 158-186).
Note the source computes `accumulation_curve[n_points - 11]`, which for
`n_points = 10` is the Python index `-1`. -/
def calculate_accumulation_slope (curve : List ℚ) : ℚ :=
  if curve.length < 2 then 0
  else if curve.length < 10 then
    if curve.length = 1 then 0
    else (pyIdx curve (-1) - pyIdx curve 0) / ((curve.length : ℚ) - 1)
  else
    (pyIdx curve (-1) - pyIdx curve ((curve.length : ℤ) - 11)) / 10

/-- Splits a character list at each colon, like Python str.split(':')
(an empty input gives one empty part). -/
def splitOnColon (cs : List Char) : List (List Char) :=
  match cs with
  | [] => [[]]
  | c :: rest =>
    match splitOnColon rest with
    | [] => [[c]]
    | h :: t => if c = ':' then [] :: h :: t else (c :: h) :: t

/-- Accumulating decimal parser: fails on the first non-digit character. -/
def parseDigitsGo (a : ℕ) : List Char → Option ℕ
  | [] => some a
  | c :: rest =>
    if c.isDigit then parseDigitsGo (a * 10 + (c.toNat - 48)) rest else none

/-- Parses a non-empty all-digit string as a natural number; models Python
int() on the digit strings grid keys are made of (any other string is a
parse failure, as int() raises ValueError on malformed keys). -/
def parseDigits (cs : List Char) : Option ℕ :=
  if cs = [] then none else parseDigitsGo 0 cs

/-- Digit counts required per resolution tier (grid_utils.py lines 21-30). -/
def digitsNeeded (target : ℕ) : Option ℕ :=
  if target = 1 then some 4
  else if target = 10 then some 3
  else if target = 50 then some 3
  else if target = 100 then some 2
  else none

/-- Truncate (integer division) or zero-pad (multiplication) a coordinate so
that it has exactly the target digit count (grid_utils.py lines 38-53). -/
def adjustDigits (d cur v : ℕ) : ℕ :=
  if d < cur then v / 10 ^ (cur - d)
  else if cur < d then v * 10 ^ (d - cur)
  else v

/-- Decimal digits of a coordinate left-padded with zeros to the required
width, like the Python format f-string with a zero pad. -/
def padZeros (d n : ℕ) : List Char :=
  List.replicate (d - (Nat.toDigits 10 n).length) '0' ++ Nat.toDigits 10 n

/-- Output key of the converter: both coordinates zero-padded to the digit
count and joined with a colon. -/
def formatKey (d n e : ℕ) : String :=
  String.mk (padZeros d n ++ ':' :: padZeros d e)

/-- `convert_to_resolution` of grid_utils.py (lines 6-64): split the key at
the colon, parse both coordinates, truncate or pad to the digit count of the
target resolution, round down to a multiple of 5 for the 50 km tier, and
reformat; any failure yields the sentinel none (Python None). -/
def convert_to_resolution (grid_cell : String) (target_resolution_km : ℕ) :
    Option String :=
  match splitOnColon grid_cell.data, digitsNeeded target_resolution_km with
  | [ns, es], some d =>
    match parseDigits ns, parseDigits es with
    | some n0, some e0 =>
      some (formatKey d
        (if target_resolution_km = 50 then adjustDigits d ns.length n0 / 5 * 5
         else adjustDigits d ns.length n0)
        (if target_resolution_km = 50 then adjustDigits d es.length e0 / 5 * 5
         else adjustDigits d es.length e0))
    | _, _ => none
  | _, _ => none

/-- Looks up a grid cell in an aggregated association list; an absent key
has the empty species list. -/
def lookupGrouped (m : List (String × List String)) (k : String) :
    List String :=
  match m with
  | [] => []
  | (k', vs) :: rest => if k' = k then vs else lookupGrouped rest k

/-- Appends one species name to the list of its grid cell, creating the cell
at the end on first arrival (the behaviour of a Python defaultdict(list)). -/
def addRecord (m : List (String × List String)) (k : String) (v : String) :
    List (String × List String) :=
  match m with
  | [] => [(k, [v])]
  | (k', vs) :: rest =>
    if k' = k then (k', vs ++ [v]) :: rest else (k', vs) :: addRecord rest k v

/-- `group_by_grid_cell` of data_loader.py (lines 59-87): each record is a
(grid key, scientific name) pair; records whose key fails conversion are
skipped, the rest are appended under the converted key. -/
def group_by_grid_cell (records : List (String × String))
    (resolution_km : ℕ) : List (String × List String) :=
  records.foldl (fun m r =>
    match convert_to_resolution r.1 resolution_km with
    | none => m
    | some k => addRecord m k r.2) []

/-- Python int() applied to a rational: truncation toward zero. -/
def pyInt (q : ℚ) : ℤ :=
  if 0 ≤ q then q.floor else q.ceil

/-- Python f-string formatting %02x of an integer colour channel. -/
def fmt02x (n : ℤ) : List Char :=
  if 0 ≤ n then
    List.replicate (2 - (Nat.toDigits 16 n.toNat).length) '0' ++
      Nat.toDigits 16 n.toNat
  else
    '-' :: (List.replicate (1 - (Nat.toDigits 16 (-n).toNat).length) '0' ++
      Nat.toDigits 16 (-n).toNat)

/-- `hex_color_ramp` of color_utils.py (lines 6-42): blue when the range is
degenerate, otherwise a blue-cyan-yellow-red ramp over the normalized
position of the value in the range. -/
def hex_color_ramp (value min_val max_val : ℚ) : String :=
  if max_val = min_val then "#0000ff"
  else
    if (value - min_val) / (max_val - min_val) < 33 / 100 then
      String.mk ('#' :: fmt02x 0 ++
        fmt02x (pyInt (255 * ((value - min_val) / (max_val - min_val) / (33 / 100)))) ++
        fmt02x 255)
    else if (value - min_val) / (max_val - min_val) < 67 / 100 then
      String.mk ('#' ::
        fmt02x (pyInt (255 * (((value - min_val) / (max_val - min_val) - 33 / 100) / (34 / 100)))) ++
        fmt02x 255 ++
        fmt02x (pyInt (255 * (1 - ((value - min_val) / (max_val - min_val) - 33 / 100) / (34 / 100)))))
    else
      String.mk ('#' :: fmt02x 255 ++
        fmt02x (pyInt (255 * (1 - ((value - min_val) / (max_val - min_val) - 67 / 100) / (33 / 100)))) ++
        fmt02x 0)

/-- `add_colors_to_values` of color_utils.py (lines 45-72): computes the
minimum and maximum over all values and maps every cell to its colour plus
the original value. -/
def add_colors_to_values (values_dict : List (String × ℚ)) :
    List (String × (String × ℚ)) :=
  if values_dict = [] then []
  else
    values_dict.map (fun p =>
      (p.1, (hex_color_ramp p.2
        ((values_dict.map Prod.snd).foldl min
          ((values_dict.map Prod.snd).headD 0))
        ((values_dict.map Prod.snd).foldl max
          ((values_dict.map Prod.snd).headD 0)), p.2)))

/-- `calculate_speciescount` of analysis_methods.py (lines 12-30): number of
unique species per grid cell. -/
def calculate_speciescount (area_records : List (String × List String)) :
    List (String × ℚ) :=
  area_records.map (fun p => (p.1, (p.2.dedup.length : ℚ)))

/-- `calculate_chao1` of analysis_methods.py (lines 189-207): Chao1
incompleteness per grid cell. -/
def calculate_chao1 (area_records : List (String × List String)) :
    List (String × ℚ) :=
  area_records.map (fun p => (p.1, calculate_incompleteness p.2))

/-- The per-permutation accumulation curve of the inner loop of
`build_accumulation_curve`: at each step, the number of distinct species in
the prefix seen so far. -/
def accumCurveCounts (l : List String) : List ℕ :=
  (List.range l.length).map (fun i => (l.take (i + 1)).dedup.length)

/-- `build_accumulation_curve` of analysis_methods.py (lines 33-75).  The
random shuffles of the Python source are supplied as an oracle giving the
permutation used in each iteration; the result averages the per-iteration
curves pointwise. -/
def build_accumulation_curve (shuffle : ℕ → List String → List String)
    (species_list : List String) (n_iterations : ℕ) : List ℚ :=
  if species_list = [] then []
  else if (List.range n_iterations).map
      (fun i => accumCurveCounts (shuffle i species_list)) = [] then []
  else
    (List.range species_list.length).map (fun i =>
      (((List.range n_iterations).map
          (fun j => accumCurveCounts (shuffle j species_list))).map
        (fun c => (c.getD i 0 : ℚ))).sum / (n_iterations : ℚ))

/-- `calculate_accumulation_curve` of analysis_methods.py (lines 210-231):
slope of the averaged accumulation curve per grid cell, with 1000 Monte
Carlo iterations drawn from the shuffle oracle. -/
def calculate_accumulation_curve (shuffle : ℕ → List String → List String)
    (area_records : List (String × List String)) : List (String × ℚ) :=
  area_records.map (fun p =>
    (p.1, calculate_accumulation_slope
      (build_accumulation_curve shuffle p.2 1000)))

/-- Maximum total occurrences for a species to be considered rare
(analysis_methods.py line 9). -/
def RARE_SPECIES_MAX_OCCURRENCES : ℕ := 50

/-- All species occurrences across all grid cells, with duplicates. -/
def allOccurrences (area_records : List (String × List String)) :
    List String :=
  (area_records.map Prod.snd).flatten

/-- `identify_rare_species` of analysis_methods.py (lines 234-253): species
whose total occurrence count across all cells is at most the threshold. -/
def identify_rare_species (area_records : List (String × List String))
    (max_occurrences : ℕ) : List String :=
  (allOccurrences area_records).dedup.filter
    (fun s => (allOccurrences area_records).count s ≤ max_occurrences)

/-- Weight of an indicator species for a rare species: the number of grid
cells where both occur, provided the indicator is distinct from the rare
species and not itself rare (analysis_methods.py lines 271-282). -/
def indicatorWeight (area_records : List (String × List String))
    (rare : List String) (rs other : String) : ℕ :=
  if other = rs ∨ other ∈ rare then 0
  else (area_records.filter
    (fun p => decide (rs ∈ p.2 ∧ other ∈ p.2))).length

/-- The indicator species of one rare species with their positive weights. -/
def indicatorsFor (area_records : List (String × List String))
    (rare : List String) (rs : String) : List (String × ℕ) :=
  (allOccurrences area_records).dedup.filterMap (fun o =>
    if indicatorWeight area_records rare rs o = 0 then none
    else some (o, indicatorWeight area_records rare rs o))

/-- `find_indicator_species` of analysis_methods.py (lines 256-285): maps
each rare species to its indicator weights, dropping rare species that have
no indicators. -/
def find_indicator_species (area_records : List (String × List String))
    (rare : List String) : List (String × List (String × ℕ)) :=
  rare.filterMap (fun rs =>
    if indicatorsFor area_records rare rs = [] then none
    else some (rs, indicatorsFor area_records rare rs))

/-- The scoring loop over the indicator map for one cell: accumulates the
summed weights of present indicators of absent rare species, and the number
of absent rare species (analysis_methods.py lines 336-347). -/
def cellRawScore (indicators : List (String × List (String × ℕ)))
    (species_list : List String) : ℚ × ℕ :=
  indicators.foldl (fun acc p =>
    if p.1 ∈ species_list then acc
    else (acc.1 + ((p.2.filter (fun q => decide (q.1 ∈ species_list))).map
      (fun q => (q.2 : ℚ))).sum, acc.2 + 1)) (0, 0)

/-- The unnormalized potential of one cell (analysis_methods.py lines
329-357): indicator score per absent rare species, weighted by 1 plus the
cell's incompleteness; zero when no rare species is absent or no indicator
is present. -/
def rawPotential (indicators : List (String × List (String × ℕ)))
    (species_list : List String) : ℚ :=
  if 0 < (cellRawScore indicators species_list).2 ∧
      0 < (cellRawScore indicators species_list).1 then
    ((cellRawScore indicators species_list).1 /
      ((cellRawScore indicators species_list).2 : ℚ)) *
      (1 + calculate_incompleteness species_list)
  else 0

/-- `calculate_rare_species_potential` of analysis_methods.py (lines
288-364): all-zero fallbacks when there are no rare species or no indicator
relationships, otherwise the per-cell raw potentials normalized by their
maximum when it is positive. -/
def calculate_rare_species_potential
    (area_records : List (String × List String)) : List (String × ℚ) :=
  if area_records = [] then []
  else if identify_rare_species area_records RARE_SPECIES_MAX_OCCURRENCES
      = [] then
    area_records.map (fun p => (p.1, 0))
  else if find_indicator_species area_records
      (identify_rare_species area_records RARE_SPECIES_MAX_OCCURRENCES)
      = [] then
    area_records.map (fun p => (p.1, 0))
  else
    (fun result : List (String × ℚ) =>
      if 0 < (result.map Prod.snd).foldl max ((result.map Prod.snd).headD 0)
      then result.map (fun p => (p.1, p.2 /
        ((result.map Prod.snd).foldl max ((result.map Prod.snd).headD 0))))
      else result)
    (area_records.map (fun p =>
      (p.1, rawPotential
        (find_indicator_species area_records
          (identify_rare_species area_records RARE_SPECIES_MAX_OCCURRENCES))
        p.2)))

/-! ## Helper lemmas -/

theorem chao1_ge_length (counts : List ℕ) :
    (counts.length : ℚ) ≤ calculate_chao1_estimator counts := by
  unfold calculate_chao1_estimator
  split
  · next h => subst h; simp
  · split
    · split
      · next h1 =>
        have h2 : (1 : ℚ) ≤ (F1count counts : ℚ) := by exact_mod_cast h1
        have h3 : (0 : ℚ) ≤
            ((F1count counts : ℚ) * ((F1count counts : ℚ) - 1)) / 2 := by
          apply div_nonneg _ (by norm_num)
          exact mul_nonneg (by positivity) (by linarith)
        linarith
      · exact le_refl _
    · next h2 =>
      have hF2 : (0 : ℚ) < (F2count counts : ℚ) := by
        exact_mod_cast Nat.pos_of_ne_zero h2
      have h3 : (0 : ℚ) ≤
          ((F1count counts : ℚ) * (F1count counts : ℚ)) /
            (2 * (F2count counts : ℚ)) := by positivity
      linarith

theorem chao1_eq_length_iff (counts : List ℕ) :
    calculate_chao1_estimator counts = (counts.length : ℚ) ↔
      F1count counts = 0 ∨ (F1count counts = 1 ∧ F2count counts = 0) := by
  unfold calculate_chao1_estimator
  split
  · next h => subst h; simp [F1count, F2count]
  · split
    · next hF2 =>
      split
      · next hF1 =>
        constructor
        · intro he
          have h0 : ((F1count counts : ℚ) * ((F1count counts : ℚ) - 1)) / 2
              = 0 := by linarith
          rcases mul_eq_zero.mp (by linarith [h0] :
              (F1count counts : ℚ) * ((F1count counts : ℚ) - 1) = 0) with
            h | h
          · exact absurd (by exact_mod_cast h) (Nat.pos_iff_ne_zero.mp hF1)
          · have : (F1count counts : ℚ) = 1 := by linarith
            exact Or.inr ⟨by exact_mod_cast this, hF2⟩
        · rintro (h | ⟨h, -⟩)
          · exact absurd h (Nat.pos_iff_ne_zero.mp hF1)
          · simp [h]
      · next hF1 =>
        simp [Nat.eq_zero_of_not_pos (fun h => hF1 h)]
    · next hF2 =>
      have hF2q : (0 : ℚ) < (F2count counts : ℚ) := by
        exact_mod_cast Nat.pos_of_ne_zero hF2
      constructor
      · intro he
        have h0 : ((F1count counts : ℚ) * (F1count counts : ℚ)) /
            (2 * (F2count counts : ℚ)) = 0 := by linarith
        have h1 : (F1count counts : ℚ) * (F1count counts : ℚ) = 0 := by
          have := (div_eq_zero_iff.mp h0)
          rcases this with h | h
          · exact h
          · exact absurd h (by positivity)
        rcases mul_eq_zero.mp h1 with h | h <;>
          exact Or.inl (by exact_mod_cast h)
      · rintro (h | ⟨-, h⟩)
        · simp [h]
        · exact absurd h hF2


theorem speciesCounts_length_pos (l : List String) (h : l ≠ []) :
    0 < (speciesCounts l).length := by
  simp only [speciesCounts, List.length_map]
  exact List.length_pos.mpr (by simpa using h)

theorem chao1_speciesCounts_pos (l : List String) (h : l ≠ []) :
    0 < calculate_chao1_estimator (speciesCounts l) := by
  have h1 := speciesCounts_length_pos l h
  have h2 := chao1_ge_length (speciesCounts l)
  have h3 : (0 : ℚ) < ((speciesCounts l).length : ℚ) := by exact_mod_cast h1
  linarith

theorem incompleteness_nonneg (l : List String) :
    0 ≤ calculate_incompleteness l := by
  unfold calculate_incompleteness
  split
  · norm_num
  · split
    · norm_num
    · exact le_max_left 0 _

theorem foldl_min_all_eq (l : List ℚ) (a q : ℚ) (ha : a = q)
    (h : ∀ x ∈ l, x = q) : l.foldl min a = q := by
  induction l generalizing a with
  | nil => exact ha
  | cons x t ih =>
    apply ih
    · rw [ha, h x (by simp)]; exact min_self q
    · intro y hy; exact h y (by simp [hy])

theorem foldl_max_all_eq (l : List ℚ) (a q : ℚ) (ha : a = q)
    (h : ∀ x ∈ l, x = q) : l.foldl max a = q := by
  induction l generalizing a with
  | nil => exact ha
  | cons x t ih =>
    apply ih
    · rw [ha, h x (by simp)]; exact max_self q
    · intro y hy; exact h y (by simp [hy])

theorem le_foldl_max (l : List ℚ) (a : ℚ) : a ≤ l.foldl max a := by
  induction l generalizing a with
  | nil => exact le_refl a
  | cons x t ih => exact le_trans (le_max_left a x) (ih (max a x))

theorem mem_le_foldl_max (l : List ℚ) (a x : ℚ) (hx : x ∈ l) :
    x ≤ l.foldl max a := by
  induction l generalizing a with
  | nil => cases hx
  | cons y t ih =>
    rcases List.mem_cons.mp hx with rfl | h
    · exact le_trans (le_max_right a x) (le_foldl_max t (max a x))
    · exact ih (max a y) h

theorem lookupGrouped_addRecord (m : List (String × List String))
    (k' : String) (v : String) (k : String) :
    lookupGrouped (addRecord m k' v) k =
      if k' = k then lookupGrouped m k ++ [v] else lookupGrouped m k := by
  induction m with
  | nil =>
    by_cases h : k' = k <;> simp [addRecord, lookupGrouped, h]
  | cons p rest ih =>
    obtain ⟨k'', vs⟩ := p
    by_cases h1 : k'' = k'
    · subst h1
      by_cases h2 : k'' = k <;> simp [addRecord, lookupGrouped, h2]
    · by_cases h2 : k'' = k
      · subst h2
        have h3 : ¬ k' = k'' := fun he => h1 he.symm
        simp [addRecord, lookupGrouped, h1, h3]
      · simp [addRecord, lookupGrouped, h1, h2, ih]

theorem group_foldl_lookup (records : List (String × String))
    (resolution_km : ℕ) (k : String) :
    ∀ m, lookupGrouped (records.foldl (fun m r =>
        match convert_to_resolution r.1 resolution_km with
        | none => m
        | some k => addRecord m k r.2) m) k =
      lookupGrouped m k ++
        ((records.filter (fun r =>
          decide (convert_to_resolution r.1 resolution_km = some k))).map
            Prod.snd) := by
  induction records with
  | nil => intro m; simp
  | cons r rs ih =>
    intro m
    rcases hconv : convert_to_resolution r.1 resolution_km with _ | k'
    · simp only [List.foldl_cons, hconv]
      rw [ih]
      have hfilt : (decide (convert_to_resolution r.1 resolution_km
          = some k)) = false := by simp [hconv]
      simp [List.filter_cons, hfilt]
    · simp only [List.foldl_cons, hconv]
      rw [ih]
      rw [lookupGrouped_addRecord]
      by_cases hk : k' = k
      · subst hk
        have hfilt : (decide (convert_to_resolution r.1 resolution_km
            = some k')) = true := by simp [hconv]
        simp [List.filter_cons, hfilt]
      · have hfilt : (decide (convert_to_resolution r.1 resolution_km
            = some k)) = false := by simp [hconv, hk]
        simp [List.filter_cons, hfilt, hk]

theorem parseDigitsGo_all_digits (cs : List Char) :
    ∀ a n, parseDigitsGo a cs = some n → ∀ c ∈ cs, c.isDigit := by
  induction cs with
  | nil => intro a n _ c hc; cases hc
  | cons c t ih =>
    intro a n h x hx
    by_cases hd : c.isDigit
    · rcases List.mem_cons.mp hx with rfl | hxt
      · exact hd
      · rw [parseDigitsGo, if_pos hd] at h
        exact ih _ n h x hxt
    · rw [parseDigitsGo, if_neg hd] at h
      cases h

theorem parseDigits_all_digits (cs : List Char) (n : ℕ)
    (h : parseDigits cs = some n) : ∀ c ∈ cs, c.isDigit := by
  unfold parseDigits at h
  split at h
  · cases h
  · exact parseDigitsGo_all_digits cs 0 n h

theorem isDigit_ne_colon (c : Char) (h : c.isDigit) : c ≠ ':' := by
  intro he
  subst he
  exact absurd h (by decide)

theorem splitOnColon_no_colon (cs : List Char) (h : ∀ c ∈ cs, c ≠ ':') :
    splitOnColon cs = [cs] := by
  induction cs with
  | nil => rfl
  | cons c t ih =>
    have hc : c ≠ ':' := h c (by simp)
    rw [splitOnColon, ih (fun x hx => h x (by simp [hx]))]
    simp [hc]

theorem splitOnColon_append (ns es : List Char) (h : ∀ c ∈ ns, c ≠ ':')
    (hes : ∀ c ∈ es, c ≠ ':') :
    splitOnColon (ns ++ ':' :: es) = [ns, es] := by
  induction ns with
  | nil =>
    rw [List.nil_append, splitOnColon, splitOnColon_no_colon es hes]
    simp
  | cons c t ih =>
    have hc : c ≠ ':' := h c (by simp)
    rw [List.cons_append, splitOnColon, ih (fun x hx => h x (by simp [hx]))]
    simp [hc]

theorem cellRawScore_foldl_nonneg (indicators : List (String × List (String × ℕ)))
    (l : List String) :
    ∀ acc : ℚ × ℕ, 0 ≤ acc.1 →
      0 ≤ (indicators.foldl (fun acc p =>
        if p.1 ∈ l then acc
        else (acc.1 + ((p.2.filter (fun q => decide (q.1 ∈ l))).map
          (fun q => (q.2 : ℚ))).sum, acc.2 + 1)) acc).1 := by
  induction indicators with
  | nil => intro acc h; exact h
  | cons p t ih =>
    intro acc h
    rw [List.foldl_cons]
    by_cases hp : p.1 ∈ l
    · rw [if_pos hp]; exact ih acc h
    · rw [if_neg hp]
      apply ih
      have hs : 0 ≤ ((p.2.filter (fun q => decide (q.1 ∈ l))).map
          (fun q => (q.2 : ℚ))).sum := by
        apply List.sum_nonneg
        intro x hx
        rcases List.mem_map.mp hx with ⟨q, -, rfl⟩
        positivity
      exact add_nonneg h hs

theorem cellRawScore_fst_nonneg
    (indicators : List (String × List (String × ℕ))) (l : List String) :
    0 ≤ (cellRawScore indicators l).1 :=
  cellRawScore_foldl_nonneg indicators l (0, 0) (le_refl 0)

theorem rawPotential_nonneg (indicators : List (String × List (String × ℕ)))
    (l : List String) : 0 ≤ rawPotential indicators l := by
  unfold rawPotential
  split
  · next h =>
    apply mul_nonneg
    · exact div_nonneg (le_of_lt h.2) (by positivity)
    · have := incompleteness_nonneg l
      linarith
  · exact le_refl 0

theorem pyIdx_neg_one (l : List ℚ) : pyIdx l (-1) = l.getD (l.length - 1) 0 := by
  unfold pyIdx
  rw [if_neg (by norm_num)]
  norm_num

theorem pyIdx_zero (l : List ℚ) : pyIdx l 0 = l.getD 0 0 := by
  unfold pyIdx
  rw [if_pos (by norm_num)]
  norm_num

theorem pyIdx_natCast (l : List ℚ) (n : ℕ) : pyIdx l (n : ℤ) = l.getD n 0 := by
  unfold pyIdx
  rw [if_pos (by positivity)]
  norm_num

/-! ## Claim theorems -/

/-- C1 counterexample: on the count distribution [1, 2] (one singleton, one
doubleton) the estimator implemented in the code yields 5/2, while the
bias-corrected form the claim asserts yields 2, so the code's estimator is
not the bias-corrected form. -/
theorem chao1_estimator_not_bias_corrected_cex :
    calculate_chao1_estimator [1, 2] = 5 / 2 ∧
      chao1BiasCorrectedSpec [1, 2] = 2 ∧
      calculate_chao1_estimator [1, 2] ≠ chao1BiasCorrectedSpec [1, 2] := by
  have h1 : calculate_chao1_estimator [1, 2] = 5 / 2 := by
    simp [calculate_chao1_estimator, F1count, F2count]
    norm_num
  have h2 : chao1BiasCorrectedSpec [1, 2] = 2 := by
    simp [chao1BiasCorrectedSpec, F1count, F2count]
  refine ⟨h1, h2, ?_⟩
  rw [h1, h2]
  norm_num

/-- C1 (amended): the estimator used by the incompleteness computation is
the classic Chao1 form S_obs + F1^2/(2*F2) when F2 > 0, with a special-cased
branch for F2 = 0 returning S_obs + F1*(F1-1)/2 when F1 > 0 and S_obs
otherwise; and calculate_incompleteness applies exactly this estimator with
no reachable division-by-zero guard on non-empty species lists. -/
theorem chao1_estimator_branches (counts : List ℕ) (h : counts ≠ []) :
    (0 < F2count counts →
      calculate_chao1_estimator counts =
        (counts.length : ℚ) +
          ((F1count counts : ℚ) * (F1count counts : ℚ)) /
            (2 * (F2count counts : ℚ))) ∧
    (F2count counts = 0 → 0 < F1count counts →
      calculate_chao1_estimator counts =
        (counts.length : ℚ) +
          ((F1count counts : ℚ) * ((F1count counts : ℚ) - 1)) / 2) ∧
    (F2count counts = 0 → F1count counts = 0 →
      calculate_chao1_estimator counts = (counts.length : ℚ)) ∧
    (∀ l : List String, l ≠ [] →
      calculate_incompleteness l =
        max 0 (1 - ((speciesCounts l).length : ℚ) /
          calculate_chao1_estimator (speciesCounts l))) := by
  refine ⟨?_, ?_, ?_, ?_⟩
  · intro hF2
    unfold calculate_chao1_estimator
    rw [if_neg h, if_neg (Nat.pos_iff_ne_zero.mp hF2)]
  · intro hF2 hF1
    unfold calculate_chao1_estimator
    rw [if_neg h, if_pos hF2, if_pos hF1]
  · intro hF2 hF1
    unfold calculate_chao1_estimator
    rw [if_neg h, if_pos hF2, if_neg (by simp [hF1])]
  · intro l hl
    unfold calculate_incompleteness
    rw [if_neg hl, if_neg (ne_of_gt (chao1_speciesCounts_pos l hl))]

/-- C1 witness: the classic-formula branch evaluated on the concrete
distribution [1, 2, 2]. -/
theorem chao1_estimator_branches_witness :
    calculate_chao1_estimator [1, 2, 2] =
      (([1, 2, 2] : List ℕ).length : ℚ) +
        ((F1count [1, 2, 2] : ℚ) * (F1count [1, 2, 2] : ℚ)) /
          (2 * (F2count [1, 2, 2] : ℚ)) :=
  (chao1_estimator_branches [1, 2, 2] (by decide)).1 (by decide)

/-- C3 counterexample: for the distribution [1, 3] the estimator equals the
observed richness although there is a singleton (F1 = 1), refuting the
claimed equivalence of equality with F1 = 0. -/
theorem chao1_equality_singleton_cex :
    calculate_chao1_estimator [1, 3] = (([1, 3] : List ℕ).length : ℚ) ∧
      F1count [1, 3] ≠ 0 := by
  constructor
  · simp [calculate_chao1_estimator, F1count, F2count]
  · decide

/-- C3 (amended): for every non-empty count distribution the Chao1 estimate
is at least the observed richness, with equality exactly when F1 = 0 or
(F1 = 1 and F2 = 0). -/
theorem chao1_ge_sobs_equality_iff (counts : List ℕ) (h : counts ≠ []) :
    (counts.length : ℚ) ≤ calculate_chao1_estimator counts ∧
      (calculate_chao1_estimator counts = (counts.length : ℚ) ↔
        F1count counts = 0 ∨ (F1count counts = 1 ∧ F2count counts = 0)) :=
  ⟨chao1_ge_length counts, chao1_eq_length_iff counts⟩

/-- C3 witness: the bound and the equality characterization on the concrete
distribution [1, 1, 2]. -/
theorem chao1_ge_sobs_equality_iff_witness :
    (([1, 1, 2] : List ℕ).length : ℚ) ≤ calculate_chao1_estimator [1, 1, 2] ∧
      (calculate_chao1_estimator [1, 1, 2] = (([1, 1, 2] : List ℕ).length : ℚ)
        ↔ F1count [1, 1, 2] = 0 ∨
          (F1count [1, 1, 2] = 1 ∧ F2count [1, 1, 2] = 0)) :=
  chao1_ge_sobs_equality_iff [1, 1, 2] (by decide)

/-- C5: on every non-empty species list with completeness at most 1.5,
completeness and incompleteness sum to exactly 1. -/
theorem completeness_incompleteness_sum_one (l : List String) (h : l ≠ [])
    (hc : calculate_completeness l ≤ 3 / 2) :
    calculate_completeness l + calculate_incompleteness l = 1 := by
  have h1 := speciesCounts_length_pos l h
  have h2 := chao1_ge_length (speciesCounts l)
  have hpos := chao1_speciesCounts_pos l h
  have hne0 : calculate_chao1_estimator (speciesCounts l) ≠ 0 :=
    ne_of_gt hpos
  have hratio : ((speciesCounts l).length : ℚ) /
      calculate_chao1_estimator (speciesCounts l) ≤ 1 :=
    (div_le_one hpos).mpr h2
  unfold calculate_completeness calculate_incompleteness
  rw [if_neg h, if_neg hne0, if_neg h, if_neg hne0]
  rw [min_eq_left (le_trans hratio (by norm_num)),
    max_eq_right (by linarith)]
  ring

/-- C5 witness: the sum evaluated on the concrete list ["a", "b", "b"]. -/
theorem completeness_incompleteness_sum_one_witness :
    calculate_completeness ["a", "b", "b"] +
      calculate_incompleteness ["a", "b", "b"] = 1 :=
  completeness_incompleteness_sum_one ["a", "b", "b"] (by decide)
    (by
      unfold calculate_completeness
      split
      · norm_num
      · split
        · norm_num
        · exact min_le_right _ _)

/-- C7: the empty species list gives incompleteness exactly 1 and
completeness exactly 0 (both functions are total, no exception). -/
theorem empty_list_incompleteness_completeness :
    calculate_incompleteness [] = 1 ∧ calculate_completeness [] = 0 := by
  constructor
  · simp [calculate_incompleteness]
  · simp [calculate_completeness]

/-- C2 counterexample: on the 10-point curve 1..10 the code returns slope 0
(the index n-11 = -1 wraps to the last point), while the claim's n < 11
formula gives (curve[9] - curve[0]) / 9 = 1. -/
theorem accumulation_slope_len10_cex :
    calculate_accumulation_slope [1, 2, 3, 4, 5, 6, 7, 8, 9, 10] = 0 ∧
      ([(1 : ℚ), 2, 3, 4, 5, 6, 7, 8, 9, 10].getD 9 0 -
        [(1 : ℚ), 2, 3, 4, 5, 6, 7, 8, 9, 10].getD 0 0) /
          (([(1 : ℚ), 2, 3, 4, 5, 6, 7, 8, 9, 10].length : ℚ) - 1) = 1 := by
  constructor
  · simp [calculate_accumulation_slope, pyIdx]
  · norm_num

/-- C2 (amended): for curves of length n, the slope is 0 when n < 2; it is
(curve[n-1] - curve[0]) / (n-1) when 2 <= n < 10; it is 0 when n = 10
(the source reads curve[n-11], the Python index -1, so the numerator
vanishes); and it is (curve[n-1] - curve[n-11]) / 10 when n >= 11. -/
theorem accumulation_slope_cases (curve : List ℚ) :
    (curve.length < 2 → calculate_accumulation_slope curve = 0) ∧
    (2 ≤ curve.length → curve.length < 10 →
      calculate_accumulation_slope curve =
        (curve.getD (curve.length - 1) 0 - curve.getD 0 0) /
          ((curve.length : ℚ) - 1)) ∧
    (curve.length = 10 → calculate_accumulation_slope curve = 0) ∧
    (11 ≤ curve.length →
      calculate_accumulation_slope curve =
        (curve.getD (curve.length - 1) 0 - curve.getD (curve.length - 11) 0)
          / 10) := by
  refine ⟨?_, ?_, ?_, ?_⟩
  · intro hlt
    unfold calculate_accumulation_slope
    rw [if_pos hlt]
  · intro h2 h10
    unfold calculate_accumulation_slope
    rw [if_neg (by omega), if_pos h10, if_neg (by omega),
      pyIdx_neg_one, pyIdx_zero]
  · intro h10
    unfold calculate_accumulation_slope
    rw [if_neg (by omega), if_neg (by omega)]
    have he : ((curve.length : ℤ) - 11) = -1 := by
      rw [h10]; norm_num
    rw [he, sub_self, zero_div]
  · intro h11
    unfold calculate_accumulation_slope
    rw [if_neg (by omega), if_neg (by omega), pyIdx_neg_one]
    have he : ((curve.length : ℤ) - 11) = ((curve.length - 11 : ℕ) : ℤ) := by
      omega
    rw [he, pyIdx_natCast]

/-- C2 witness: the whole-range branch evaluated on the concrete 3-point
curve [1, 2, 4]. -/
theorem accumulation_slope_cases_witness :
    calculate_accumulation_slope [(1 : ℚ), 2, 4] =
      ([(1 : ℚ), 2, 4].getD ([(1 : ℚ), 2, 4].length - 1) 0 -
        [(1 : ℚ), 2, 4].getD 0 0) / (([(1 : ℚ), 2, 4].length : ℚ) - 1) :=
  (accumulation_slope_cases [(1 : ℚ), 2, 4]).2.1 (by simp) (by simp)

/-- C4 counterexample: converting "6789:3458" to 50 km yields "675:345"
(678 rounded down to the nearest multiple of 5 is 675), not the "670:345"
the claim states. -/
theorem convert_50km_example_cex :
    convert_to_resolution "6789:3458" 50 = some "675:345" ∧
      convert_to_resolution "6789:3458" 50 ≠ some "670:345" := by
  constructor
  · decide
  · decide

/-- C4 (amended): the converter at 50 km first truncates or pads each
coordinate to 3 digits and then rounds it down to the nearest multiple of
5; converting "6789:3458" to 100 km yields "67:34" and to 50 km yields
"675:345". -/
theorem convert_50km_round_down :
    convert_to_resolution "6789:3458" 100 = some "67:34" ∧
      convert_to_resolution "6789:3458" 50 = some "675:345" ∧
      ∀ (ns es : List Char) (n0 e0 : ℕ), parseDigits ns = some n0 →
        parseDigits es = some e0 →
        convert_to_resolution (String.mk (ns ++ ':' :: es)) 50 =
          some (formatKey 3 (adjustDigits 3 ns.length n0 / 5 * 5)
            (adjustDigits 3 es.length e0 / 5 * 5)) := by
  refine ⟨by decide, by decide, ?_⟩
  intro ns es n0 e0 hn he
  have hnd : ∀ c ∈ ns, c ≠ ':' :=
    fun c hc => isDigit_ne_colon c (parseDigits_all_digits ns n0 hn c hc)
  have hed : ∀ c ∈ es, c ≠ ':' :=
    fun c hc => isDigit_ne_colon c (parseDigits_all_digits es e0 he c hc)
  have hdata : (String.mk (ns ++ ':' :: es)).data = ns ++ ':' :: es := rfl
  unfold convert_to_resolution
  rw [hdata, splitOnColon_append ns es hnd hed]
  simp [digitsNeeded, hn, he]

/-- C4 witness: the general 50 km statement applied to the concrete key
"6789:3458". -/
theorem convert_50km_round_down_witness :
    convert_to_resolution
        (String.mk (['6', '7', '8', '9'] ++ ':' :: ['3', '4', '5', '8'])) 50 =
      some (formatKey 3
        (adjustDigits 3 (['6', '7', '8', '9'] : List Char).length 6789
          / 5 * 5)
        (adjustDigits 3 (['3', '4', '5', '8'] : List Char).length 3458
          / 5 * 5)) :=
  convert_50km_round_down.2.2 ['6', '7', '8', '9'] ['3', '4', '5', '8']
    6789 3458 (by decide) (by decide)

/-- C8: grid aggregation drops exactly the records whose key fails
conversion and appends every successfully converted record's species name
to the converted key's list, preserving duplicates in arrival order. -/
theorem group_by_grid_cell_drops_and_appends
    (records : List (String × String)) (resolution_km : ℕ) (k : String) :
    lookupGrouped (group_by_grid_cell records resolution_km) k =
      ((records.filter (fun r =>
        decide (convert_to_resolution r.1 resolution_km = some k))).map
          Prod.snd) := by
  have h := group_foldl_lookup records resolution_km k []
  simpa [group_by_grid_cell, lookupGrouped] using h

/-- C9: when every value of the score map is equal the colour mapper paints
every cell "#0000ff"; in particular the species counts of the two-cell
example are 2 and 2, and colour-mapping them paints both cells blue. -/
theorem equal_values_all_blue :
    (∀ (m : List (String × ℚ)) (q : ℚ), (∀ p ∈ m, p.2 = q) →
      (add_colors_to_values m).map (fun p => (p.2).1) =
        m.map (fun _ => "#0000ff")) ∧
      calculate_speciescount
          [("67:34", ["A", "A", "B"]), ("67:35", ["A", "C"])] =
        [("67:34", 2), ("67:35", 2)] ∧
      (add_colors_to_values (calculate_speciescount
          [("67:34", ["A", "A", "B"]), ("67:35", ["A", "C"])])).map
        (fun p => (p.1, (p.2).1)) =
        [("67:34", "#0000ff"), ("67:35", "#0000ff")] := by
  have hgen : ∀ (m : List (String × ℚ)) (q : ℚ), (∀ p ∈ m, p.2 = q) →
      (add_colors_to_values m).map (fun p => (p.2).1) =
        m.map (fun _ => "#0000ff") := by
    intro m q hq
    unfold add_colors_to_values
    by_cases hm : m = []
    · subst hm; simp
    · rw [if_neg hm, List.map_map]
      apply List.map_congr_left
      intro p hp
      have hmem : ∀ x ∈ m.map Prod.snd, x = q := by
        intro x hx
        rcases List.mem_map.mp hx with ⟨r, hr, rfl⟩
        exact hq r hr
      have hhead : (m.map Prod.snd).headD 0 = q := by
        rcases m with _ | ⟨r, t⟩
        · exact absurd rfl hm
        · simpa using hq r (by simp)
      have hmin : (m.map Prod.snd).foldl min ((m.map Prod.snd).headD 0)
          = q := foldl_min_all_eq _ _ q hhead hmem
      have hmax : (m.map Prod.snd).foldl max ((m.map Prod.snd).headD 0)
          = q := foldl_max_all_eq _ _ q hhead hmem
      simp only [Function.comp_apply]
      rw [hmin, hmax]
      simp [hex_color_ramp]
  have hcount : calculate_speciescount
      [("67:34", ["A", "A", "B"]), ("67:35", ["A", "C"])] =
      [("67:34", 2), ("67:35", 2)] := by
    have hd1 : (["A", "A", "B"] : List String).dedup.length = 2 := by decide
    have hd2 : (["A", "C"] : List String).dedup.length = 2 := by decide
    simp [calculate_speciescount, hd1, hd2]
  refine ⟨hgen, hcount, ?_⟩
  rw [hcount]
  unfold add_colors_to_values
  rw [if_neg (by simp)]
  norm_num [hex_color_ramp]

/-- C9 witness: the all-blue statement applied to a concrete two-cell map of
equal values. -/
theorem equal_values_all_blue_witness :
    (add_colors_to_values [("a", (3 : ℚ)), ("b", 3)]).map
        (fun p => (p.2).1) =
      [(("a" : String), (3 : ℚ)), ("b", 3)].map (fun _ => "#0000ff") :=
  equal_values_all_blue.1 [("a", 3), ("b", 3)] 3 (by
    intro p hp
    fin_cases hp <;> rfl)

theorem normalize_bounds (R : List (String × ℚ))
    (hnn : ∀ p ∈ R, 0 ≤ p.2) (p : String × ℚ)
    (hp : p ∈ (if 0 < (R.map Prod.snd).foldl max ((R.map Prod.snd).headD 0)
      then R.map (fun r => (r.1, r.2 /
        ((R.map Prod.snd).foldl max ((R.map Prod.snd).headD 0))))
      else R)) : 0 ≤ p.2 ∧ p.2 ≤ 1 := by
  by_cases hM : 0 < (R.map Prod.snd).foldl max ((R.map Prod.snd).headD 0)
  · rw [if_pos hM] at hp
    rcases List.mem_map.mp hp with ⟨r, hr, rfl⟩
    constructor
    · exact div_nonneg (hnn r hr) (le_of_lt hM)
    · exact (div_le_one hM).mpr
        (mem_le_foldl_max _ _ _ (List.mem_map_of_mem Prod.snd hr))
  · rw [if_neg hM] at hp
    have h0 : p.2 ≤ (R.map Prod.snd).foldl max ((R.map Prod.snd).headD 0) :=
      mem_le_foldl_max _ _ _ (List.mem_map_of_mem Prod.snd hp)
    have h1 : 0 ≤ p.2 := hnn p hp
    refine ⟨h1, ?_⟩
    have h2 : p.2 ≤ 0 := le_trans h0 (not_lt.mp hM)
    linarith

theorem normalize_map_fst (R : List (String × ℚ)) :
    ((if 0 < (R.map Prod.snd).foldl max ((R.map Prod.snd).headD 0)
      then R.map (fun r => (r.1, r.2 /
        ((R.map Prod.snd).foldl max ((R.map Prod.snd).headD 0))))
      else R).map Prod.fst) = R.map Prod.fst := by
  split
  · simp [List.map_map, Function.comp]
  · rfl

/-- C6: every score of calculate_rare_species_potential lies in [0, 1], and
when no rare species exist or no indicator relationships are found, every
cell of the input scores exactly 0. -/
theorem rare_species_potential_range_and_fallback
    (area_records : List (String × List String)) :
    (∀ p ∈ calculate_rare_species_potential area_records,
        0 ≤ p.2 ∧ p.2 ≤ 1) ∧
      ((identify_rare_species area_records RARE_SPECIES_MAX_OCCURRENCES = []
          ∨ find_indicator_species area_records
            (identify_rare_species area_records RARE_SPECIES_MAX_OCCURRENCES)
            = []) →
        calculate_rare_species_potential area_records =
          area_records.map (fun p => (p.1, 0))) := by
  by_cases hemp : area_records = []
  · subst hemp
    constructor
    · intro p hp
      simp [calculate_rare_species_potential] at hp
    · intro _
      simp [calculate_rare_species_potential]
  · by_cases hrare : identify_rare_species area_records
        RARE_SPECIES_MAX_OCCURRENCES = []
    · constructor
      · intro p hp
        rw [calculate_rare_species_potential, if_neg hemp, if_pos hrare]
          at hp
        rcases List.mem_map.mp hp with ⟨r, -, rfl⟩
        norm_num
      · intro _
        rw [calculate_rare_species_potential, if_neg hemp, if_pos hrare]
    · by_cases hind : find_indicator_species area_records
          (identify_rare_species area_records RARE_SPECIES_MAX_OCCURRENCES)
          = []
      · constructor
        · intro p hp
          rw [calculate_rare_species_potential, if_neg hemp, if_neg hrare,
            if_pos hind] at hp
          rcases List.mem_map.mp hp with ⟨r, -, rfl⟩
          norm_num
        · intro _
          rw [calculate_rare_species_potential, if_neg hemp, if_neg hrare,
            if_pos hind]
      · constructor
        · intro p hp
          rw [calculate_rare_species_potential, if_neg hemp, if_neg hrare,
            if_neg hind] at hp
          refine normalize_bounds _ ?_ p (by exact hp)
          intro r hr
          rcases List.mem_map.mp hr with ⟨a, -, rfl⟩
          exact rawPotential_nonneg _ _
        · intro hor
          rcases hor with h | h
          · exact absurd h hrare
          · exact absurd h hind

/-- C6 witness: a single-cell map containing one species 51 times has no
rare species, so the result is the all-zero score map. -/
theorem rare_species_potential_fallback_witness :
    calculate_rare_species_potential [("c", List.replicate 51 "X")] =
      [(("c" : String), (0 : ℚ))] :=
  (rare_species_potential_range_and_fallback
    [("c", List.replicate 51 "X")]).2 (Or.inl (by decide))

/-- C10: the four estimators each return a score map whose keys are exactly
the keys of the input, in order. -/
theorem estimators_preserve_keys (area_records : List (String × List String))
    (shuffle : ℕ → List String → List String) :
    (calculate_speciescount area_records).map Prod.fst =
        area_records.map Prod.fst ∧
      (calculate_chao1 area_records).map Prod.fst =
        area_records.map Prod.fst ∧
      (calculate_accumulation_curve shuffle area_records).map Prod.fst =
        area_records.map Prod.fst ∧
      (calculate_rare_species_potential area_records).map Prod.fst =
        area_records.map Prod.fst := by
  refine ⟨?_, ?_, ?_, ?_⟩
  · simp [calculate_speciescount, List.map_map, Function.comp]
  · simp [calculate_chao1, List.map_map, Function.comp]
  · simp [calculate_accumulation_curve, List.map_map, Function.comp]
  · by_cases hemp : area_records = []
    · subst hemp
      simp [calculate_rare_species_potential]
    · by_cases hrare : identify_rare_species area_records
          RARE_SPECIES_MAX_OCCURRENCES = []
      · rw [calculate_rare_species_potential, if_neg hemp, if_pos hrare]
        simp [List.map_map, Function.comp]
      · by_cases hind : find_indicator_species area_records
            (identify_rare_species area_records RARE_SPECIES_MAX_OCCURRENCES)
            = []
        · rw [calculate_rare_species_potential, if_neg hemp, if_neg hrare,
            if_pos hind]
          simp [List.map_map, Function.comp]
        · rw [calculate_rare_species_potential, if_neg hemp, if_neg hrare,
            if_neg hind, normalize_map_fst]
          simp [List.map_map, Function.comp]
